import Mathlib

/-!
Shallow embedding of the craftserver orchestration core
(src/backend/profiler.py, src/backend/server_manager.py,
src/backend/minecraft_manager.py) together with theorems settling the
specification claims about it.

Python floats are modelled as exact rationals (ℚ); Python `dict`s as
insertion-ordered association lists; `collections.deque(maxlen=n)` as a
list with an appending operation that evicts from the front past
capacity; exceptions as `Except`-valued results paired with the state
at the moment the exception escapes (so that partial mutation made
before a `raise` is observable).
-/

namespace CraftServer

/-! ### `collections.deque(maxlen = cap)` — profiler.py lines 21-25

`deque.append` on a full bounded deque discards the leftmost element. -/

def dequeAppend (cap : Nat) (xs : List ℚ) (x : ℚ) : List ℚ :=
  let ys := xs ++ [x]
  if cap < ys.length then ys.drop (ys.length - cap) else ys

/-! ### PerformanceProfiler state (profiler.py lines 16-44)

Fields not touched by the claims under study (docker handles, monitor
task flags, plugin/entity profiling maps) are omitted; the five rolling
histories, the `current_*` metric fields and the capacity are kept. -/

structure ProfilerState where
  historySize : Nat
  tpsHistory : List ℚ
  cpuHistory : List ℚ
  memoryHistory : List ℚ
  tickTimeHistory : List ℚ
  timestampHistory : List ℚ
  currentTps : ℚ
  currentCpu : ℚ
  currentMemory : ℚ
  currentMemoryUsed : ℤ
  currentMemoryMax : ℤ
  currentTickTime : ℚ
deriving DecidableEq

/-! ### Python `round(x, 2)` — banker's rounding to two decimals -/

def roundHalfEven (y : ℚ) : ℤ :=
  let f := Int.floor y
  let r := y - (f : ℚ)
  if r < 1/2 then f
  else if 1/2 < r then f + 1
  else if f % 2 = 0 then f else f + 1

def round2 (x : ℚ) : ℚ :=
  (roundHalfEven (100 * x) : ℚ) / 100

/-! ### Log-line extraction (profiler.py lines 162-192)

`parse_tps_from_log` searches the line with the regular expression
`TPS.*?(\d+\.?\d*)`: the earliest decimal literal after the first
occurrence of the marker `TPS`.  `parse_mspt_from_log` searches with
`tick.*?(\d+\.?\d*)\s*ms` case-insensitively: the earliest decimal
literal after the first occurrence of `tick` that is followed, after
optional whitespace, by `ms`.  The scanners below implement exactly
those matches on a single line (no newlines). -/

def takeDigits : List Char → List Char × List Char
  | [] => ([], [])
  | c :: t =>
    if c.isDigit then
      let p := takeDigits t
      (c :: p.1, p.2)
    else ([], c :: t)

def digitsToNat (ds : List Char) : Nat :=
  ds.foldl (fun n c => 10 * n + (c.toNat - 48)) 0

/-- `\d+\.?\d*` : one or more digits, an optional dot, optional digits.
Returns the captured (integer digits, fraction digits) pair — the
matched group before Python's `float()` conversion — and the rest of
the line. -/
def parseDecimal (l : List Char) : Option ((List Char × List Char) × List Char) :=
  let p1 := takeDigits l
  if p1.1 = [] then none
  else
    match p1.2 with
    | '.' :: r2 =>
      let p2 := takeDigits r2
      some ((p1.1, p2.1), p2.2)
    | r1 => some ((p1.1, []), r1)

/-- Python `float()` applied to a captured decimal literal. -/
def floatOfDigits (d : List Char × List Char) : ℚ :=
  (digitsToNat d.1 : ℚ) + (digitsToNat d.2 : ℚ) / (10 ^ d.2.length : ℚ)

/-- Suffix strictly after the first occurrence of `marker`, if any. -/
def dropToMarker (marker : List Char) : List Char → Option (List Char)
  | [] => if marker = [] then some [] else none
  | c :: t =>
    if marker.isPrefixOf (c :: t) then some ((c :: t).drop marker.length)
    else dropToMarker marker t

def skipToDigit : List Char → List Char
  | [] => []
  | c :: t => if c.isDigit then c :: t else skipToDigit t

/-- Python `\s`. -/
def isSpaceChar (c : Char) : Bool :=
  c = ' ' || c = '\t' || c = '\n' || c = '\r' || c = '\x0b' || c = '\x0c'

/-- Earliest decimal literal in `l` that is followed (after optional
whitespace) by the literal `ms`. -/
def scanMsNumber : List Char → Option (List Char × List Char)
  | [] => none
  | c :: t =>
    if c.isDigit then
      match parseDecimal (c :: t) with
      | some (v, rest) =>
        if ['m', 's'].isPrefixOf (rest.dropWhile isSpaceChar) then some v
        else scanMsNumber t
      | none => scanMsNumber t
    else scanMsNumber t

def extractTps (l : List Char) : Option (List Char × List Char) :=
  match dropToMarker ['T', 'P', 'S'] l with
  | none => none
  | some rest =>
    match parseDecimal (skipToDigit rest) with
    | some (v, _) => some v
    | none => none

def extractMspt (l : List Char) : Option (List Char × List Char) :=
  match dropToMarker ['t', 'i', 'c', 'k'] (l.map Char.toLower) with
  | none => none
  | some rest => scanMsNumber rest

/-- profiler.py lines 162-176, `parse_tps_from_log`. -/
def parseTpsFromLog (s : ProfilerState) (line : String) : ProfilerState :=
  match extractTps line.data with
  | none => s
  | some cap =>
    let tps := floatOfDigits cap
    let s1 := { s with currentTps := tps,
                       tpsHistory := dequeAppend s.historySize s.tpsHistory tps }
    if 0 < tps then
      let tickTime := round2 (50 / (tps / 20))
      { s1 with currentTickTime := tickTime,
                tickTimeHistory := dequeAppend s.historySize s1.tickTimeHistory tickTime }
    else s1

/-- profiler.py lines 178-192, `parse_mspt_from_log`. -/
def parseMsptFromLog (s : ProfilerState) (line : String) : ProfilerState :=
  match extractMspt line.data with
  | none => s
  | some cap =>
    let mspt := floatOfDigits cap
    let s1 := { s with currentTickTime := mspt,
                       tickTimeHistory := dequeAppend s.historySize s.tickTimeHistory mspt }
    if 0 < mspt then
      let tps := round2 (min 20 (1000 / mspt))
      { s1 with currentTps := tps,
                tpsHistory := dequeAppend s.historySize s1.tpsHistory tps }
    else s1

/-! ### Alerts (profiler.py lines 272-340, `get_alerts`)

The Python alert dicts carry a formatted message string alongside level,
type and value; the message is a presentation of the other fields and is
not modelled. -/

inductive AlertLevel
  | warning
  | critical
deriving DecidableEq

inductive AlertCategory
  | tps
  | cpu
  | memory
  | tickTime
deriving DecidableEq

structure Alert where
  level : AlertLevel
  category : AlertCategory
  value : ℚ
deriving DecidableEq

def tpsAlerts (s : ProfilerState) : List Alert :=
  if s.currentTps < 15 then [⟨.critical, .tps, s.currentTps⟩]
  else if s.currentTps < 18 then [⟨.warning, .tps, s.currentTps⟩]
  else []

def cpuAlerts (s : ProfilerState) : List Alert :=
  if 90 < s.currentCpu then [⟨.critical, .cpu, s.currentCpu⟩]
  else if 75 < s.currentCpu then [⟨.warning, .cpu, s.currentCpu⟩]
  else []

def memoryAlerts (s : ProfilerState) : List Alert :=
  if 90 < s.currentMemory then [⟨.critical, .memory, s.currentMemory⟩]
  else if 80 < s.currentMemory then [⟨.warning, .memory, s.currentMemory⟩]
  else []

def tickTimeAlerts (s : ProfilerState) : List Alert :=
  if 100 < s.currentTickTime then [⟨.critical, .tickTime, s.currentTickTime⟩]
  else if 70 < s.currentTickTime then [⟨.warning, .tickTime, s.currentTickTime⟩]
  else []

def getAlerts (s : ProfilerState) : List Alert :=
  tpsAlerts s ++ cpuAlerts s ++ memoryAlerts s ++ tickTimeAlerts s

/-! ### Statistics (profiler.py lines 229-259, `get_statistics`)

Returns `{}` (here: `none`) whenever the tick-rate history is empty,
regardless of the other histories. -/

def listMin : List ℚ → ℚ
  | [] => 0
  | h :: t => t.foldl min h

def listMax : List ℚ → ℚ
  | [] => 0
  | h :: t => t.foldl max h

structure SeriesStats where
  current : ℚ
  avg : ℚ
  low : ℚ
  high : ℚ
deriving DecidableEq

/-- current/avg/min/max block for one history, with the Python guard
`... if history else 0` applied to the avg/min/max entries. -/
def seriesStatsOf (current : ℚ) (hist : List ℚ) : SeriesStats :=
  { current := current
    avg := if hist = [] then 0 else round2 (hist.sum / (hist.length : ℚ))
    low := if hist = [] then 0 else round2 (listMin hist)
    high := if hist = [] then 0 else round2 (listMax hist) }

structure Statistics where
  tps : SeriesStats
  cpu : SeriesStats
  memory : SeriesStats
  tickTime : SeriesStats
deriving DecidableEq

def getStatistics (s : ProfilerState) : Option Statistics :=
  if s.tpsHistory = [] then none
  else
    some
      { tps :=
          { current := s.currentTps
            avg := round2 (s.tpsHistory.sum / (s.tpsHistory.length : ℚ))
            low := round2 (listMin s.tpsHistory)
            high := round2 (listMax s.tpsHistory) }
        cpu := seriesStatsOf s.currentCpu s.cpuHistory
        memory := seriesStatsOf s.currentMemory s.memoryHistory
        tickTime := seriesStatsOf s.currentTickTime s.tickTimeHistory }

/-! ### ServerManager registry (server_manager.py)

`self.servers` is an insertion-ordered `dict` from id to `ServerInfo`,
modelled as an association list; `self.managers` holds the ids that have
a live `MinecraftManager` component stack; `current_server_id` is the
selected instance.  Disk persistence (`_save_servers`) rewrites the file
from this state and carries no extra information, so it is not part of
the state. -/

structure ServerInfo where
  name : String
  port : Nat
  createdAt : String
  lastAccessed : String
deriving DecidableEq

structure ServerManagerState where
  servers : List (String × ServerInfo)
  currentServerId : Option String
  managers : List String
deriving DecidableEq

def serverIds (s : ServerManagerState) : List String :=
  s.servers.map Prod.fst

def lookupServer (s : ServerManagerState) (id : String) : Option ServerInfo :=
  (s.servers.find? (fun p => p.1 == id)).map Prod.snd

/-- `used_ports = {server.port for server in self.servers.values()}`
(server_manager.py line 239) — a Python set of ports. -/
def usedPorts (s : ServerManagerState) : Finset Nat :=
  (s.servers.map (fun p => p.2.port)).toFinset

/-- The `while port in used_ports: port += 1` loop of
`_find_available_port` (server_manager.py lines 240-243), with explicit
fuel; the loop scans at most one port past each used port. -/
def findPortLoop (used : Finset Nat) : Nat → Nat → Nat
  | port, 0 => port
  | port, fuel + 1 => if port ∈ used then findPortLoop used (port + 1) fuel else port

/-- server_manager.py lines 237-243, `_find_available_port`
(default `start_port = 25565`). -/
def findAvailablePort (s : ServerManagerState) : Nat :=
  findPortLoop (usedPorts s) 25565 ((usedPorts s).card + 1)

/-- server_manager.py lines 145-189, `create_server`.  `freshId` stands
for the generated `uuid4` and `now` for `datetime.now()`.  The method
performs no port-collision check: it builds the record, registers it,
builds a manager stack and returns the record's dict.  Configuration
writes into the manager are file-level effects outside the registry
state. -/
def createServer (s : ServerManagerState) (freshId : String) (name : String)
    (port? : Option Nat) (now : String) : ServerManagerState × ServerInfo :=
  let port := match port? with
    | none => findAvailablePort s
    | some p => p
  let info : ServerInfo :=
    { name := name, port := port, createdAt := now, lastAccessed := now }
  let s1 := { s with servers := s.servers ++ [(freshId, info)] }
  let s2 := { s1 with managers := s1.managers ++ [freshId] }
  (s2, info)

inductive RegistryErr
  | portInUse (port : Nat)
deriving DecidableEq

def setServerName (servers : List (String × ServerInfo)) (id : String)
    (n : String) : List (String × ServerInfo) :=
  servers.map (fun p => if p.1 == id then (p.1, { p.2 with name := n }) else p)

def setServerPort (servers : List (String × ServerInfo)) (id : String)
    (port : Nat) : List (String × ServerInfo) :=
  servers.map (fun p => if p.1 == id then (p.1, { p.2 with port := port }) else p)

/-- server_manager.py lines 251-283, `update_server_info`.  Returns the
Python result (`False` for unknown id, `True` on success, the raised
port-collision exception as `Except.error`) paired with the state at
return/raise time: the name assignment at line 264 happens before the
port-collision check at lines 272-274, so a raised collision leaves the
new name in place. -/
def updateServerInfo (s : ServerManagerState) (serverId : String)
    (name? : Option String) (port? : Option Nat) :
    Except RegistryErr Bool × ServerManagerState :=
  if serverId ∈ serverIds s then
    let s1 := match name? with
      | some n => { s with servers := setServerName s.servers serverId n }
      | none => s
    match port? with
    | some p =>
      if s1.servers.any (fun q => !(q.1 == serverId) && q.2.port == p) then
        (.error (.portInUse p), s1)
      else
        (.ok true, { s1 with servers := setServerPort s1.servers serverId p })
    | none => (.ok true, s1)
  else (.ok false, s)

/-- Observable step ordering inside `delete_server`. -/
inductive DeleteEvent
  | cleanupStack (id : String)
  | removeRecord (id : String)
  | createDefault (id : String)
deriving DecidableEq

def eraseServer (servers : List (String × ServerInfo)) (id : String) :
    List (String × ServerInfo) :=
  servers.filter (fun p => !(p.1 == id))

/-- server_manager.py lines 191-221, `delete_server`, emitting the order
of its observable steps.  `freshId`/`now` feed `_create_default_server`
(lines 88-99: a "Default Server" record on port 25565 that becomes
current) when the last instance was deleted while current. -/
def deleteServer (s : ServerManagerState) (serverId : String)
    (freshId : String) (now : String) :
    Bool × ServerManagerState × List DeleteEvent :=
  if serverId ∈ serverIds s then
    let s1 :=
      if serverId ∈ s.managers then
        { s with managers := s.managers.filter (fun m => !(m == serverId)) }
      else s
    let ev1 : List DeleteEvent :=
      if serverId ∈ s.managers then [.cleanupStack serverId] else []
    let s2 := { s1 with servers := eraseServer s1.servers serverId }
    let ev2 := ev1 ++ [DeleteEvent.removeRecord serverId]
    if s2.currentServerId = some serverId then
      match s2.servers with
      | (fid, _) :: _ => (true, { s2 with currentServerId := some fid }, ev2)
      | [] =>
        let info : ServerInfo :=
          { name := "Default Server", port := 25565, createdAt := now, lastAccessed := now }
        (true,
         { s2 with servers := [(freshId, info)], currentServerId := some freshId },
         ev2 ++ [DeleteEvent.createDefault freshId])
    else (true, s2, ev2)
  else (false, s, [])

/-! ### MinecraftManager process lifecycle (minecraft_manager.py)

`server_process` is a `subprocess.Popen` handle or `None`; `poll()` is
`None` exactly while the child has not exited, modelled by `exited`.
Mutating statements of `start_server`/`stop_server`/`send_command` are
mirrored in program order, and a raised exception returns the state at
the raise point, so "fails without mutating" is a provable property
rather than a modelling assumption. -/

structure ProcHandle where
  exited : Bool
deriving DecidableEq

structure MCState where
  serverProcess : Option ProcHandle
  startTime : Option ℚ
  eulaAccepted : Bool
  configSaved : Bool
  commandsSent : List String
deriving DecidableEq

/-- minecraft_manager.py lines 203-207, `is_running`. -/
def isRunning (s : MCState) : Bool :=
  match s.serverProcess with
  | none => false
  | some p => !p.exited

inductive MCErr
  | alreadyRunning
  | notRunning
deriving DecidableEq

/-- minecraft_manager.py lines 134-171, `start_server`.  The
`is_running()` guard is the first statement; only past it does the
method write `eula.txt`, save the config, spawn the process and record
the start timestamp (`now`). -/
def startServer (s : MCState) (now : ℚ) : Except MCErr Unit × MCState :=
  if isRunning s then (.error .alreadyRunning, s)
  else
    let s1 := { s with eulaAccepted := true, configSaved := true }
    let s2 := { s1 with serverProcess := some ⟨false⟩, startTime := some now }
    (.ok (), s2)

/-- minecraft_manager.py lines 194-200, `send_command`. -/
def sendCommand (s : MCState) (cmd : String) : Except MCErr Unit × MCState :=
  if isRunning s then (.ok (), { s with commandsSent := s.commandsSent ++ [cmd] })
  else (.error .notRunning, s)

/-- minecraft_manager.py lines 173-188, `stop_server`.  The
`is_running()` guard is the first statement; past it the method sends
the `stop` console command, waits (force-killing on timeout), and
clears the handle and start timestamp. -/
def stopServer (s : MCState) : Except MCErr Unit × MCState :=
  if isRunning s then
    let s1 := (sendCommand s "stop").2
    (.ok (), { s1 with serverProcess := none, startTime := none })
  else (.error .notRunning, s)

/-! ### Scheduled tasks (minecraft_manager.py lines 479-583)

`self.scheduled_tasks` is a `dict` id → `ScheduledTask`;
`self.scheduler` is an APScheduler instance whose jobs are keyed by the
task id — modelled as the list of registered job ids (a list, not a
set, so that "at most one registration per id" is a real statement).
`_schedule_task` (lines 502-515) first builds a `CronTrigger` from the
task's cron expression — raising on an invalid expression — and then
calls `add_job` with `replace_existing=True`.  Cron-expression validity
is decided by the external APScheduler library and is passed in as the
predicate `cronValid`. -/

structure ScheduledTask where
  id : String
  name : String
  taskType : String
  schedule : String
  enabled : Bool
  lastRun : Option String
deriving DecidableEq

structure SchedulerState where
  scheduledTasks : List (String × ScheduledTask)
  jobs : List String
deriving DecidableEq

inductive SchedErr
  | notFound
  | invalidSchedule
deriving DecidableEq

/-- `scheduler.remove_job(id)` wrapped in `try/except: pass`
(minecraft_manager.py lines 552-556): drop the registration if present,
absence is not an error. -/
def removeJobSwallow (jobs : List String) (id : String) : List String :=
  jobs.filter (fun j => !(j == id))

/-- `scheduler.add_job(..., id=task.id, replace_existing=True)`
(minecraft_manager.py lines 508-514): any same-id job is replaced. -/
def addJob (jobs : List String) (id : String) : List String :=
  jobs.filter (fun j => !(j == id)) ++ [id]

/-- `self.scheduled_tasks[task_id] = task` on the dict. -/
def setTask (tasks : List (String × ScheduledTask)) (id : String)
    (t : ScheduledTask) : List (String × ScheduledTask) :=
  if tasks.any (fun p => p.1 == id) then
    tasks.map (fun p => if p.1 == id then (id, t) else p)
  else tasks ++ [(id, t)]

/-- minecraft_manager.py lines 548-567, `update_scheduled_task`:
unknown id raises "Task not found"; otherwise the old job registration
is removed (absence swallowed), the record is stored under the same id
(`task.id = task_id`), and the task is re-registered when enabled —
where `_schedule_task` raises `invalidSchedule` before `add_job` if the
cron expression does not parse. -/
def updateScheduledTask (cronValid : String → Bool) (st : SchedulerState)
    (taskId : String) (task : ScheduledTask) :
    Except SchedErr Unit × SchedulerState :=
  if st.scheduledTasks.any (fun p => p.1 == taskId) then
    let jobs1 := removeJobSwallow st.jobs taskId
    let task1 := { task with id := taskId }
    let st1 : SchedulerState :=
      { scheduledTasks := setTask st.scheduledTasks taskId task1, jobs := jobs1 }
    if task1.enabled then
      if cronValid task1.schedule then
        (.ok (), { st1 with jobs := addJob jobs1 taskId })
      else (.error .invalidSchedule, st1)
    else (.ok (), st1)
  else (.error .notFound, st)

/-! ### Concrete example states used by witnesses and counterexamples -/

def exRegistryOne : ServerManagerState :=
  ⟨[("srv-1", ⟨"Default Server", 25565, "t0", "t0"⟩)], some "srv-1", []⟩

def exRegistryTwo : ServerManagerState :=
  ⟨[("a", ⟨"Alpha", 25565, "t0", "t0"⟩), ("b", ⟨"Beta", 25566, "t0", "t0"⟩)],
   some "a", []⟩

def exRegistryDel : ServerManagerState :=
  ⟨[("a", ⟨"Alpha", 25565, "t0", "t0"⟩), ("b", ⟨"Beta", 25566, "t0", "t0"⟩)],
   some "a", ["a"]⟩

def exTask : ScheduledTask :=
  ⟨"t1", "Nightly backup", "backup", "0 */6 * * *", true, none⟩

def exTask2 : ScheduledTask :=
  ⟨"", "Hourly restart", "restart", "0 * * * *", true, none⟩

/-! ## Theorems -/

/-- C1: on every manager whose process is running, `start_server` fails
with the already-running error and leaves the whole manager state
unchanged; on every manager whose process is not running, `stop_server`
fails with the not-running error and leaves the whole manager state
unchanged. -/
theorem start_stop_guards (s : MCState) (now : ℚ) :
    (isRunning s = true → startServer s now = (.error .alreadyRunning, s)) ∧
    (isRunning s = false → stopServer s = (.error .notRunning, s)) := by
  constructor
  · intro h
    simp [startServer, h]
  · intro h
    simp [stopServer, h]

/-- Witness for `start_stop_guards`: a running manager rejects
`start_server`, a stopped one rejects `stop_server`, both unchanged. -/
theorem start_stop_guards_witness :
    startServer ⟨some ⟨false⟩, some 5, true, true, []⟩ 9 =
      (.error .alreadyRunning, ⟨some ⟨false⟩, some 5, true, true, []⟩) ∧
    stopServer ⟨none, none, false, false, []⟩ =
      (.error .notRunning, ⟨none, none, false, false, []⟩) :=
  ⟨(start_stop_guards ⟨some ⟨false⟩, some 5, true, true, []⟩ 9).1 rfl,
   (start_stop_guards ⟨none, none, false, false, []⟩ 0).2 rfl⟩

/-- C10: whenever the tick-rate history is empty, `get_statistics`
returns the entirely empty result, regardless of the contents of the
CPU, memory and tick-time histories. -/
theorem getStatistics_empty_tps (s : ProfilerState) (h : s.tpsHistory = []) :
    getStatistics s = none := by
  simp [getStatistics, h]

/-- Witness for `getStatistics_empty_tps`: empty tick-rate history but
non-empty CPU/memory/tick-time histories still yield the empty result. -/
theorem getStatistics_empty_tps_witness :
    getStatistics ⟨300, [], [55], [60], [45], [1], 20, 0, 0, 0, 0, 0⟩ = none :=
  getStatistics_empty_tps ⟨300, [], [55], [60], [45], [1], 20, 0, 0, 0, 0, 0⟩ rfl

/-- C5: a line with a `TPS` marker followed by the decimal `20.0` sets
the current tick-rate to `20.0`; a line with a mean-tick-duration marker
followed by `100ms` sets the derived tick-rate to `10.0` (via
`min(20, 1000/duration_ms)`); a duration of `0ms` causes no division
(the `mspt > 0` guard) and leaves the current tick-rate unchanged. -/
theorem tick_rate_extractors (s : ProfilerState) :
    (parseTpsFromLog s "TPS: 20.0").currentTps = 20 ∧
    (parseMsptFromLog s "Mean tick: 100ms").currentTps = 10 ∧
    (parseMsptFromLog s "Mean tick: 0ms").currentTps = s.currentTps := by
  refine ⟨?_, ?_, ?_⟩
  · have h : extractTps ("TPS: 20.0").data = some (['2', '0'], ['0']) := by decide
    have hv : floatOfDigits (['2', '0'], ['0']) = 20 := by
      have h1 : digitsToNat ['2', '0'] = 20 := by decide
      have h2 : digitsToNat ['0'] = 0 := by decide
      norm_num [floatOfDigits, h1, h2]
    simp only [parseTpsFromLog, h, hv]
    norm_num
  · have h : extractMspt ("Mean tick: 100ms").data = some (['1', '0', '0'], []) := by
      decide
    have hv : floatOfDigits (['1', '0', '0'], []) = 100 := by
      have h1 : digitsToNat ['1', '0', '0'] = 100 := by decide
      have h2 : digitsToNat ([] : List Char) = 0 := by decide
      norm_num [floatOfDigits, h1, h2]
    simp only [parseMsptFromLog, h, hv]
    norm_num [round2, roundHalfEven]
  · have h : extractMspt ("Mean tick: 0ms").data = some (['0'], []) := by decide
    have hv : floatOfDigits (['0'], []) = 0 := by
      have h1 : digitsToNat ['0'] = 0 := by decide
      have h2 : digitsToNat ([] : List Char) = 0 := rfl
      norm_num [floatOfDigits, h1, h2]
    simp only [parseMsptFromLog, h, hv]
    norm_num

/-- C2 (divergence exhibited): `create_server` with an explicit port
equal to a registered instance's port does not fail and registers a
second instance on the same port — the registry is mutated and no
`PortInUse` rejection occurs. -/
theorem createServer_duplicate_port :
    (createServer exRegistryOne "srv-2" "Server B" (some 25565) "t1").2.port = 25565 ∧
    serverIds (createServer exRegistryOne "srv-2" "Server B" (some 25565) "t1").1 =
      ["srv-1", "srv-2"] ∧
    ((createServer exRegistryOne "srv-2" "Server B" (some 25565) "t1").1.servers.filter
        (fun p => p.2.port == 25565)).length = 2 := by
  decide

theorem dequeAppend_eq (cap : Nat) (xs : List ℚ) (x : ℚ) :
    dequeAppend cap xs x = (xs ++ [x]).drop ((xs.length + 1) - cap) := by
  unfold dequeAppend
  simp only [List.length_append, List.length_singleton]
  split_ifs with h
  · rfl
  · rw [Nat.sub_eq_zero_of_le (by omega), List.drop_zero]

theorem foldl_dequeAppend (cap : Nat) :
    ∀ (l xs : List ℚ), xs.length ≤ cap →
      List.foldl (dequeAppend cap) xs l = (xs ++ l).drop ((xs ++ l).length - cap)
  | [], xs, h => by
    simp [Nat.sub_eq_zero_of_le h]
  | a :: t, xs, h => by
    have hlen : (dequeAppend cap xs a).length ≤ cap := by
      rw [dequeAppend_eq]
      simp only [List.length_drop, List.length_append, List.length_singleton]
      omega
    have step := foldl_dequeAppend cap t (dequeAppend cap xs a) hlen
    rw [List.foldl_cons, step, dequeAppend_eq]
    have hd : xs.length + 1 - cap ≤ (xs ++ [a]).length := by
      simp only [List.length_append, List.length_singleton]
      omega
    rw [List.drop_append_of_le_length hd |>.symm, List.drop_drop]
    have hassoc : (xs ++ [a]) ++ t = xs ++ a :: t := by simp
    rw [hassoc]
    congr 1
    simp only [List.length_drop, List.length_append, List.length_singleton,
      List.length_cons]
    omega

/-- C3: the rolling histories backed by `deque(maxlen = N)` never hold
more than `N` elements, and after `N + k` appends starting from the
empty history exactly the last `N` appended values remain, oldest
first. -/
theorem ring_buffer_bound (N k : Nat) (samples : List ℚ)
    (h : samples.length = N + k) :
    (List.foldl (dequeAppend N) [] samples).length ≤ N ∧
    List.foldl (dequeAppend N) [] samples = samples.drop k := by
  have key := foldl_dequeAppend N samples [] (by simp)
  simp only [List.nil_append] at key
  refine ⟨?_, ?_⟩
  · rw [key]
    simp only [List.length_drop]
    omega
  · rw [key]
    congr 1
    omega

/-- Witness for `ring_buffer_bound`: capacity 2, three appends keep the
last two samples in order. -/
theorem ring_buffer_bound_witness :
    (List.foldl (dequeAppend 2) [] [(1 : ℚ), 2, 3]).length ≤ 2 ∧
    List.foldl (dequeAppend 2) [] [(1 : ℚ), 2, 3] = [2, 3] :=
  ring_buffer_bound 2 1 [1, 2, 3] rfl

theorem findPortLoop_spec (used : Finset Nat) :
    ∀ (fuel port : Nat), (used.filter (fun q => port ≤ q)).card < fuel →
      findPortLoop used port fuel ∉ used ∧
      port ≤ findPortLoop used port fuel ∧
      ∀ q, port ≤ q → q < findPortLoop used port fuel → q ∈ used := by
  intro fuel
  induction fuel with
  | zero =>
    intro port h
    exact absurd h (Nat.not_lt_zero _)
  | succ fuel ih =>
    intro port h
    by_cases hp : port ∈ used
    · have hset : used.filter (fun q => port + 1 ≤ q) =
          (used.filter (fun q => port ≤ q)).erase port := by
        ext q
        simp only [Finset.mem_filter, Finset.mem_erase]
        constructor
        · rintro ⟨hq, hle⟩
          exact ⟨by omega, hq, by omega⟩
        · rintro ⟨hne, hq, hle⟩
          exact ⟨hq, by omega⟩
      have hmem : port ∈ used.filter (fun q => port ≤ q) := by
        simp [hp]
      have hpos : 0 < (used.filter (fun q => port ≤ q)).card :=
        Finset.card_pos.mpr ⟨port, hmem⟩
      have hcard : (used.filter (fun q => port + 1 ≤ q)).card < fuel := by
        rw [hset, Finset.card_erase_of_mem hmem]
        omega
      obtain ⟨h1, h2, h3⟩ := ih (port + 1) hcard
      have hrw : findPortLoop used port (fuel + 1) = findPortLoop used (port + 1) fuel := by
        simp [findPortLoop, hp]
      rw [hrw]
      refine ⟨h1, by omega, ?_⟩
      intro q hq hlt
      by_cases hqe : q = port
      · exact hqe ▸ hp
      · exact h3 q (by omega) hlt
    · have hrw : findPortLoop used port (fuel + 1) = port := by
        simp [findPortLoop, hp]
      rw [hrw]
      exact ⟨hp, le_refl _, fun q hq hlt => absurd (lt_of_le_of_lt hq hlt) (lt_irrefl _)⟩

/-- C9: with no explicit port, allocation returns the lowest port that
is at least the base value 25565 and is not the port of any registered
instance. -/
theorem findAvailablePort_lowest (s : ServerManagerState) :
    findAvailablePort s ∉ usedPorts s ∧
    (∀ p ∈ s.servers, p.2.port ≠ findAvailablePort s) ∧
    25565 ≤ findAvailablePort s ∧
    ∀ q, 25565 ≤ q → q < findAvailablePort s → q ∈ usedPorts s := by
  have h := findPortLoop_spec (usedPorts s) ((usedPorts s).card + 1) 25565
    (lt_of_le_of_lt (Finset.card_filter_le _ _) (Nat.lt_succ_self _))
  unfold findAvailablePort
  refine ⟨h.1, ?_, h.2.1, h.2.2⟩
  intro p hp heq
  apply h.1
  rw [← heq]
  simp only [usedPorts, List.mem_toFinset, List.mem_map]
  exact ⟨p, hp, rfl⟩

/-- Witness for `findAvailablePort_lowest`: with ports 25565 and 25566
taken, allocation skips both and every lower candidate is in use. -/
theorem findAvailablePort_lowest_witness :
    findAvailablePort exRegistryTwo ∉ usedPorts exRegistryTwo ∧
    25565 ≤ findAvailablePort exRegistryTwo ∧
    25566 ∈ usedPorts exRegistryTwo :=
  ⟨(findAvailablePort_lowest exRegistryTwo).1,
   (findAvailablePort_lowest exRegistryTwo).2.2.1,
   (findAvailablePort_lowest exRegistryTwo).2.2.2 25566 (by decide) (by decide)⟩

theorem mem_tpsAlerts {s : ProfilerState} {a : Alert} (h : a ∈ tpsAlerts s) :
    a.category = AlertCategory.tps := by
  unfold tpsAlerts at h
  split_ifs at h <;> simp_all

theorem mem_cpuAlerts {s : ProfilerState} {a : Alert} (h : a ∈ cpuAlerts s) :
    a.category = AlertCategory.cpu := by
  unfold cpuAlerts at h
  split_ifs at h <;> simp_all

theorem mem_memoryAlerts {s : ProfilerState} {a : Alert} (h : a ∈ memoryAlerts s) :
    a.category = AlertCategory.memory := by
  unfold memoryAlerts at h
  split_ifs at h <;> simp_all

theorem mem_tickTimeAlerts {s : ProfilerState} {a : Alert} (h : a ∈ tickTimeAlerts s) :
    a.category = AlertCategory.tickTime := by
  unfold tickTimeAlerts at h
  split_ifs at h <;> simp_all

theorem tpsAlerts_subsingleton {s : ProfilerState} {a b : Alert}
    (ha : a ∈ tpsAlerts s) (hb : b ∈ tpsAlerts s) : a = b := by
  unfold tpsAlerts at ha hb
  split_ifs at ha hb <;> simp_all

theorem cpuAlerts_subsingleton {s : ProfilerState} {a b : Alert}
    (ha : a ∈ cpuAlerts s) (hb : b ∈ cpuAlerts s) : a = b := by
  unfold cpuAlerts at ha hb
  split_ifs at ha hb <;> simp_all

theorem memoryAlerts_subsingleton {s : ProfilerState} {a b : Alert}
    (ha : a ∈ memoryAlerts s) (hb : b ∈ memoryAlerts s) : a = b := by
  unfold memoryAlerts at ha hb
  split_ifs at ha hb <;> simp_all

theorem tickTimeAlerts_subsingleton {s : ProfilerState} {a b : Alert}
    (ha : a ∈ tickTimeAlerts s) (hb : b ∈ tickTimeAlerts s) : a = b := by
  unfold tickTimeAlerts at ha hb
  split_ifs at ha hb <;> simp_all

theorem mem_getAlerts_iff {s : ProfilerState} {a : Alert} :
    a ∈ getAlerts s ↔
      a ∈ tpsAlerts s ∨ a ∈ cpuAlerts s ∨ a ∈ memoryAlerts s ∨ a ∈ tickTimeAlerts s := by
  simp [getAlerts, List.mem_append, or_assoc]

theorem mem_getAlerts_cat_tps {s : ProfilerState} {a : Alert}
    (hcat : a.category = AlertCategory.tps) :
    a ∈ getAlerts s ↔ a ∈ tpsAlerts s := by
  rw [mem_getAlerts_iff]
  constructor
  · rintro (h | h | h | h)
    · exact h
    · rw [mem_cpuAlerts h] at hcat; cases hcat
    · rw [mem_memoryAlerts h] at hcat; cases hcat
    · rw [mem_tickTimeAlerts h] at hcat; cases hcat
  · exact fun h => Or.inl h

theorem mem_getAlerts_cat_cpu {s : ProfilerState} {a : Alert}
    (hcat : a.category = AlertCategory.cpu) :
    a ∈ getAlerts s ↔ a ∈ cpuAlerts s := by
  rw [mem_getAlerts_iff]
  constructor
  · rintro (h | h | h | h)
    · rw [mem_tpsAlerts h] at hcat; cases hcat
    · exact h
    · rw [mem_memoryAlerts h] at hcat; cases hcat
    · rw [mem_tickTimeAlerts h] at hcat; cases hcat
  · exact fun h => Or.inr (Or.inl h)

theorem mem_getAlerts_cat_memory {s : ProfilerState} {a : Alert}
    (hcat : a.category = AlertCategory.memory) :
    a ∈ getAlerts s ↔ a ∈ memoryAlerts s := by
  rw [mem_getAlerts_iff]
  constructor
  · rintro (h | h | h | h)
    · rw [mem_tpsAlerts h] at hcat; cases hcat
    · rw [mem_cpuAlerts h] at hcat; cases hcat
    · exact h
    · rw [mem_tickTimeAlerts h] at hcat; cases hcat
  · exact fun h => Or.inr (Or.inr (Or.inl h))

theorem mem_getAlerts_cat_tickTime {s : ProfilerState} {a : Alert}
    (hcat : a.category = AlertCategory.tickTime) :
    a ∈ getAlerts s ↔ a ∈ tickTimeAlerts s := by
  rw [mem_getAlerts_iff]
  constructor
  · rintro (h | h | h | h)
    · rw [mem_tpsAlerts h] at hcat; cases hcat
    · rw [mem_cpuAlerts h] at hcat; cases hcat
    · rw [mem_memoryAlerts h] at hcat; cases hcat
    · exact h
  · exact fun h => Or.inr (Or.inr (Or.inr h))

/-- C4: `get_alerts` yields at most one alert per category (any two
alerts of the same category are equal), with critical taking precedence
over warning; a tick-rate of exactly 18.0 yields no tick-rate alert, a
tick-rate of 14.9 yields a critical tick-rate alert (unique by the
first conjunct); and the emitted alerts are characterized exactly by
the thresholds tick-rate <15 critical / <18 warning, CPU >90 critical /
>75 warning, memory >90 critical / >80 warning, tick-time >100ms
critical / >70ms warning. -/
theorem getAlerts_spec (s : ProfilerState) :
    (∀ a₁ ∈ getAlerts s, ∀ a₂ ∈ getAlerts s, a₁.category = a₂.category → a₁ = a₂) ∧
    (s.currentTps = 18 → ∀ a ∈ getAlerts s, a.category ≠ AlertCategory.tps) ∧
    (s.currentTps = 149 / 10 →
      Alert.mk .critical .tps (149 / 10) ∈ getAlerts s) ∧
    (Alert.mk .critical .tps s.currentTps ∈ getAlerts s ↔ s.currentTps < 15) ∧
    (Alert.mk .warning .tps s.currentTps ∈ getAlerts s ↔
      15 ≤ s.currentTps ∧ s.currentTps < 18) ∧
    (Alert.mk .critical .cpu s.currentCpu ∈ getAlerts s ↔ 90 < s.currentCpu) ∧
    (Alert.mk .warning .cpu s.currentCpu ∈ getAlerts s ↔
      75 < s.currentCpu ∧ s.currentCpu ≤ 90) ∧
    (Alert.mk .critical .memory s.currentMemory ∈ getAlerts s ↔ 90 < s.currentMemory) ∧
    (Alert.mk .warning .memory s.currentMemory ∈ getAlerts s ↔
      80 < s.currentMemory ∧ s.currentMemory ≤ 90) ∧
    (Alert.mk .critical .tickTime s.currentTickTime ∈ getAlerts s ↔
      100 < s.currentTickTime) ∧
    (Alert.mk .warning .tickTime s.currentTickTime ∈ getAlerts s ↔
      70 < s.currentTickTime ∧ s.currentTickTime ≤ 100) := by
  refine ⟨?_, ?_, ?_, ?_, ?_, ?_, ?_, ?_, ?_, ?_, ?_⟩
  · intro a₁ h₁ a₂ h₂ hcat
    rw [mem_getAlerts_iff] at h₁ h₂
    rcases h₁ with h₁ | h₁ | h₁ | h₁ <;> rcases h₂ with h₂ | h₂ | h₂ | h₂
    · exact tpsAlerts_subsingleton h₁ h₂
    · rw [mem_tpsAlerts h₁, mem_cpuAlerts h₂] at hcat; cases hcat
    · rw [mem_tpsAlerts h₁, mem_memoryAlerts h₂] at hcat; cases hcat
    · rw [mem_tpsAlerts h₁, mem_tickTimeAlerts h₂] at hcat; cases hcat
    · rw [mem_cpuAlerts h₁, mem_tpsAlerts h₂] at hcat; cases hcat
    · exact cpuAlerts_subsingleton h₁ h₂
    · rw [mem_cpuAlerts h₁, mem_memoryAlerts h₂] at hcat; cases hcat
    · rw [mem_cpuAlerts h₁, mem_tickTimeAlerts h₂] at hcat; cases hcat
    · rw [mem_memoryAlerts h₁, mem_tpsAlerts h₂] at hcat; cases hcat
    · rw [mem_memoryAlerts h₁, mem_cpuAlerts h₂] at hcat; cases hcat
    · exact memoryAlerts_subsingleton h₁ h₂
    · rw [mem_memoryAlerts h₁, mem_tickTimeAlerts h₂] at hcat; cases hcat
    · rw [mem_tickTimeAlerts h₁, mem_tpsAlerts h₂] at hcat; cases hcat
    · rw [mem_tickTimeAlerts h₁, mem_cpuAlerts h₂] at hcat; cases hcat
    · rw [mem_tickTimeAlerts h₁, mem_memoryAlerts h₂] at hcat; cases hcat
    · exact tickTimeAlerts_subsingleton h₁ h₂
  · intro h18 a ha hcat
    rw [mem_getAlerts_cat_tps hcat] at ha
    unfold tpsAlerts at ha
    rw [h18] at ha
    norm_num at ha
  · intro h149
    rw [mem_getAlerts_cat_tps rfl]
    unfold tpsAlerts
    rw [h149]
    norm_num
  · rw [mem_getAlerts_cat_tps rfl]
    unfold tpsAlerts
    split_ifs with h1 h2 <;> simp_all
  · rw [mem_getAlerts_cat_tps rfl]
    unfold tpsAlerts
    split_ifs with h1 h2 <;> simp_all
  · rw [mem_getAlerts_cat_cpu rfl]
    unfold cpuAlerts
    split_ifs with h1 h2 <;> simp_all
  · rw [mem_getAlerts_cat_cpu rfl]
    unfold cpuAlerts
    split_ifs with h1 h2 <;> simp_all
  · rw [mem_getAlerts_cat_memory rfl]
    unfold memoryAlerts
    split_ifs with h1 h2 <;> simp_all
  · rw [mem_getAlerts_cat_memory rfl]
    unfold memoryAlerts
    split_ifs with h1 h2 <;> simp_all
  · rw [mem_getAlerts_cat_tickTime rfl]
    unfold tickTimeAlerts
    split_ifs with h1 h2 <;> simp_all
  · rw [mem_getAlerts_cat_tickTime rfl]
    unfold tickTimeAlerts
    split_ifs with h1 h2 <;> simp_all

/-- Witness for `getAlerts_spec`: at tick-rate 14.9 the critical
tick-rate alert is emitted; at tick-rate exactly 18.0 no tick-rate
alert (in particular no warning) is emitted. -/
theorem getAlerts_spec_witness :
    Alert.mk .critical .tps (149 / 10) ∈
      getAlerts ⟨300, [], [], [], [], [], 149 / 10, 0, 0, 0, 0, 0⟩ ∧
    Alert.mk .warning .tps 18 ∉
      getAlerts ⟨300, [], [], [], [], [], 18, 0, 0, 0, 0, 0⟩ :=
  ⟨(getAlerts_spec ⟨300, [], [], [], [], [], 149 / 10, 0, 0, 0, 0, 0⟩).2.2.1 rfl,
   fun hmem =>
     (getAlerts_spec ⟨300, [], [], [], [], [], 18, 0, 0, 0, 0, 0⟩).2.1 rfl _ hmem rfl⟩

theorem count_removeJobSwallow (jobs : List String) (id : String) :
    (removeJobSwallow jobs id).count id = 0 := by
  simp [removeJobSwallow, List.count_eq_zero, List.mem_filter]

theorem count_addJob (jobs : List String) (id : String) :
    (addJob (removeJobSwallow jobs id) id).count id = 1 := by
  have h : ((removeJobSwallow jobs id).filter (fun j => !(j == id))).count id = 0 := by
    simp [List.count_eq_zero, List.mem_filter]
  simp [addJob, List.count_append, h]

theorem find?_map_set (id : String) (t : ScheduledTask) :
    ∀ tasks : List (String × ScheduledTask),
      (tasks.any (fun p => p.1 == id)) = true →
      ((tasks.map (fun p => if p.1 == id then (id, t) else p)).find?
          (fun p => p.1 == id)) = some (id, t)
  | [], hany => by simp at hany
  | q :: r, hany => by
    simp only [List.map_cons]
    by_cases hq : (q.1 == id) = true
    · rw [if_pos hq, List.find?_cons_of_pos _ (by simp)]
    · rw [if_neg hq, List.find?_cons_of_neg _ (by simpa using hq)]
      apply find?_map_set id t r
      simp only [List.any_cons, hq, Bool.false_or] at hany
      exact hany

theorem find?_append_set (id : String) (t : ScheduledTask) :
    ∀ tasks : List (String × ScheduledTask),
      (tasks.any (fun p => p.1 == id)) = false →
      ((tasks ++ [(id, t)]).find? (fun p => p.1 == id)) = some (id, t)
  | [], _ => by simp
  | q :: r, hany => by
    have hq : (q.1 == id) = false := by
      rcases Bool.eq_false_or_eq_true (q.1 == id) with h | h
      · rw [List.any_cons, h, Bool.true_or] at hany
        cases hany
      · exact h
    have hr : (r.any (fun p => p.1 == id)) = false := by
      rw [List.any_cons, hq, Bool.false_or] at hany
      exact hany
    rw [List.cons_append, List.find?_cons_of_neg _ (by simp [hq])]
    exact find?_append_set id t r hr

theorem find?_setTask (id : String) (t : ScheduledTask)
    (tasks : List (String × ScheduledTask)) :
    (setTask tasks id t).find? (fun p => p.1 == id) = some (id, t) := by
  unfold setTask
  by_cases hany : (tasks.any (fun p => p.1 == id)) = true
  · rw [if_pos hany]
    exact find?_map_set id t tasks hany
  · rw [if_neg hany]
    exact find?_append_set id t tasks (Bool.not_eq_true _ ▸ hany)

/-- C6: `update_scheduled_task` fails with the not-found error when the
id is unknown (state untouched); on a known id it removes any prior
dispatch registration, stores the record under the same id, re-registers
exactly when the task is enabled, and afterwards at most one dispatch
registration exists for that id — even if the prior state had stale
duplicates, and also when re-registration fails on an invalid cron
expression. -/
theorem updateScheduledTask_spec (cronValid : String → Bool)
    (st : SchedulerState) (taskId : String) (task : ScheduledTask) :
    (taskId ∉ st.scheduledTasks.map Prod.fst →
      updateScheduledTask cronValid st taskId task = (.error .notFound, st)) ∧
    (taskId ∈ st.scheduledTasks.map Prod.fst →
      ((updateScheduledTask cronValid st taskId task).2.jobs.count taskId ≤ 1 ∧
       ((updateScheduledTask cronValid st taskId task).1 = .ok () →
         ((updateScheduledTask cronValid st taskId task).2.scheduledTasks.find?
             (fun p => p.1 == taskId)).map Prod.snd = some { task with id := taskId } ∧
         (taskId ∈ (updateScheduledTask cronValid st taskId task).2.jobs ↔
           task.enabled = true)))) := by
  have hany : (st.scheduledTasks.any (fun p => p.1 == taskId)) = true ↔
      taskId ∈ st.scheduledTasks.map Prod.fst := by
    simp [List.any_eq_true, List.mem_map]
  constructor
  · intro hmem
    have h : (st.scheduledTasks.any (fun p => p.1 == taskId)) = false := by
      rw [← Bool.not_eq_true, hany]
      exact hmem
    simp [updateScheduledTask, h]
  · intro hmem
    have h : (st.scheduledTasks.any (fun p => p.1 == taskId)) = true := hany.mpr hmem
    have hfind := find?_setTask taskId { task with id := taskId } st.scheduledTasks
    by_cases hen : task.enabled
    · by_cases hcron : cronValid task.schedule
      · have hres : updateScheduledTask cronValid st taskId task =
            (.ok (), { scheduledTasks := setTask st.scheduledTasks taskId
                         { task with id := taskId },
                       jobs := addJob (removeJobSwallow st.jobs taskId) taskId }) := by
          simp [updateScheduledTask, h, hen, hcron]
        rw [hres]
        refine ⟨by simp [count_addJob], fun _ => ⟨by simp [hfind], ?_⟩⟩
        simp [addJob, hen]
      · have hres : updateScheduledTask cronValid st taskId task =
            (.error .invalidSchedule,
             { scheduledTasks := setTask st.scheduledTasks taskId
                 { task with id := taskId },
               jobs := removeJobSwallow st.jobs taskId }) := by
          simp [updateScheduledTask, h, hen, hcron]
        rw [hres]
        exact ⟨by simp [count_removeJobSwallow], fun hc => by cases hc⟩
    · have hres : updateScheduledTask cronValid st taskId task =
          (.ok (), { scheduledTasks := setTask st.scheduledTasks taskId
                       { task with id := taskId },
                     jobs := removeJobSwallow st.jobs taskId }) := by
        simp [updateScheduledTask, h, hen]
      rw [hres]
      refine ⟨by simp [count_removeJobSwallow], fun _ => ⟨by simp [hfind], ?_⟩⟩
      have : taskId ∉ removeJobSwallow st.jobs taskId := by
        simp [removeJobSwallow, List.mem_filter]
      simp [this, hen]

/-- Witness for `updateScheduledTask_spec`: updating a stored task whose
scheduler table holds two stale registrations for its id leaves exactly
one registration; updating an unknown id fails with not-found. -/
theorem updateScheduledTask_spec_witness :
    ((updateScheduledTask (fun _ => true) ⟨[("t1", exTask)], ["t1", "t1"]⟩
        "t1" exTask2).2.jobs.count "t1" ≤ 1) ∧
    updateScheduledTask (fun _ => true) ⟨[("t1", exTask)], ["t1", "t1"]⟩
        "zz" exTask2 = (.error .notFound, ⟨[("t1", exTask)], ["t1", "t1"]⟩) :=
  ⟨((updateScheduledTask_spec (fun _ => true) ⟨[("t1", exTask)], ["t1", "t1"]⟩
      "t1" exTask2).2 (by decide)).1,
   (updateScheduledTask_spec (fun _ => true) ⟨[("t1", exTask)], ["t1", "t1"]⟩
      "zz" exTask2).1 (by decide)⟩

theorem map_fst_setServerName (l : List (String × ServerInfo)) (id : String)
    (n : String) : (setServerName l id n).map Prod.fst = l.map Prod.fst := by
  induction l with
  | nil => rfl
  | cons q r ih =>
    simp only [setServerName, List.map_cons] at ih ⊢
    by_cases hq : (q.1 == id) = true
    · rw [if_pos hq]
      simp only [List.map_cons, ih]
    · rw [if_neg hq]
      simp only [List.map_cons, ih]

theorem find?_setServerName_ne (id n oid : String) (hne : oid ≠ id)
    (l : List (String × ServerInfo)) :
    (setServerName l id n).find? (fun p => p.1 == oid) =
      l.find? (fun p => p.1 == oid) := by
  induction l with
  | nil => rfl
  | cons q r ih =>
    by_cases hq : (q.1 == id) = true
    · have hqid : q.1 = id := by simpa using hq
      have hqo : (q.1 == oid) = false := by
        simp [hqid]
        exact fun hc => hne hc.symm
      simp only [setServerName, List.map_cons] at ih ⊢
      rw [if_pos hq]
      simp only [List.find?_cons, hqo]
      exact ih
    · simp only [setServerName, List.map_cons] at ih ⊢
      rw [if_neg hq]
      by_cases hqo : (q.1 == oid) = true
      · simp only [List.find?_cons, hqo]
      · have hqo2 : (q.1 == oid) = false := by simpa using hqo
        simp only [List.find?_cons, hqo2]
        exact ih

theorem find?_setServerName_self (id n : String)
    (l : List (String × ServerInfo)) :
    (setServerName l id n).find? (fun p => p.1 == id) =
      (l.find? (fun p => p.1 == id)).map (fun p => (p.1, { p.2 with name := n })) := by
  induction l with
  | nil => rfl
  | cons q r ih =>
    by_cases hq : (q.1 == id) = true
    · simp only [setServerName, List.map_cons]
      rw [if_pos hq]
      simp only [List.find?_cons, hq]
      rfl
    · simp only [setServerName, List.map_cons] at ih ⊢
      rw [if_neg hq]
      have hq2 : (q.1 == id) = false := by simpa using hq
      simp only [List.find?_cons, hq2]
      exact ih

/-- C7 counterexample: an update supplying both a new name and a port
held by another instance is rejected with the port-collision error, yet
the registry is NOT exactly as before the call — the target record's
name has already been changed. -/
theorem updateServerInfo_partial_mutation :
    (updateServerInfo exRegistryTwo "a" (some "Alpha2") (some 25566)).1 =
      .error (.portInUse 25566) ∧
    (updateServerInfo exRegistryTwo "a" (some "Alpha2") (some 25566)).2 ≠
      exRegistryTwo ∧
    lookupServer (updateServerInfo exRegistryTwo "a" (some "Alpha2") (some 25566)).2
      "a" = some ⟨"Alpha2", 25565, "t0", "t0"⟩ :=
  ⟨rfl, by decide, rfl⟩

/-- C7 as amended: a registry update rejected with the port-collision
error causes no change to the id set, the current id, the manager set,
any other record, or the target record's port — but a name supplied in
the same call has already been applied to the target record when the
error is raised. -/
theorem updateServerInfo_reject_effect (s : ServerManagerState)
    (serverId : String) (name? : Option String) (port? : Option Nat)
    (e : RegistryErr)
    (h : (updateServerInfo s serverId name? port?).1 = .error e) :
    serverIds (updateServerInfo s serverId name? port?).2 = serverIds s ∧
    (updateServerInfo s serverId name? port?).2.currentServerId =
      s.currentServerId ∧
    (updateServerInfo s serverId name? port?).2.managers = s.managers ∧
    (∀ oid, oid ≠ serverId →
      lookupServer (updateServerInfo s serverId name? port?).2 oid =
        lookupServer s oid) ∧
    lookupServer (updateServerInfo s serverId name? port?).2 serverId =
      (lookupServer s serverId).map (fun i =>
        match name? with
        | some n => { i with name := n }
        | none => i) := by
  by_cases hmem : serverId ∈ serverIds s
  · cases name? with
    | none =>
      cases port? with
      | none => simp [updateServerInfo, hmem] at h
      | some p =>
        by_cases hcol :
            (s.servers.any (fun q => !(q.1 == serverId) && q.2.port == p)) = true
        · have hres : (updateServerInfo s serverId none (some p)).2 = s := by
            simp [updateServerInfo, hmem, hcol]
          rw [hres]
          exact ⟨rfl, rfl, rfl, fun oid _ => rfl, by
            cases lookupServer s serverId <;> rfl⟩
        · simp [updateServerInfo, hmem, hcol] at h
    | some n =>
      cases port? with
      | none => simp [updateServerInfo, hmem] at h
      | some p =>
        by_cases hcol :
            (((setServerName s.servers serverId n)).any
              (fun q => !(q.1 == serverId) && q.2.port == p)) = true
        · have hres : (updateServerInfo s serverId (some n) (some p)).2 =
              { s with servers := setServerName s.servers serverId n } := by
            simp [updateServerInfo, hmem, hcol]
          rw [hres]
          refine ⟨?_, rfl, rfl, ?_, ?_⟩
          · simp [serverIds, map_fst_setServerName]
          · intro oid hne
            simp [lookupServer, find?_setServerName_ne serverId n oid hne]
          · simp only [lookupServer, find?_setServerName_self serverId n]
            cases s.servers.find? (fun q => q.1 == serverId) <;> rfl
        · simp [updateServerInfo, hmem, hcol] at h
  · simp [updateServerInfo, hmem] at h

/-- Witness for `updateServerInfo_reject_effect` at the counterexample
input: ids, current id, the other record and the target's port are
unchanged, and the new name is in place. -/
theorem updateServerInfo_reject_effect_witness :
    serverIds (updateServerInfo exRegistryTwo "a" (some "Alpha2") (some 25566)).2 =
      serverIds exRegistryTwo ∧
    lookupServer (updateServerInfo exRegistryTwo "a" (some "Alpha2") (some 25566)).2
      "b" = lookupServer exRegistryTwo "b" ∧
    lookupServer (updateServerInfo exRegistryTwo "a" (some "Alpha2") (some 25566)).2
      "a" = (lookupServer exRegistryTwo "a").map (fun i => { i with name := "Alpha2" }) :=
  ⟨(updateServerInfo_reject_effect exRegistryTwo "a" (some "Alpha2") (some 25566)
      (.portInUse 25566) rfl).1,
   (updateServerInfo_reject_effect exRegistryTwo "a" (some "Alpha2") (some 25566)
      (.portInUse 25566) rfl).2.2.2.1 "b" (by decide),
   (updateServerInfo_reject_effect exRegistryTwo "a" (some "Alpha2") (some 25566)
      (.portInUse 25566) rfl).2.2.2.2⟩

theorem ids_eraseServer_not_mem (l : List (String × ServerInfo)) (id : String) :
    id ∉ (eraseServer l id).map Prod.fst := by
  intro h
  rcases List.mem_map.mp h with ⟨p, hp, hpe⟩
  rcases List.mem_filter.mp hp with ⟨_, hpred⟩
  simp [hpe] at hpred

theorem ids_eraseServer_mem (l : List (String × ServerInfo)) (id c : String)
    (hc : c ∈ l.map Prod.fst) (hne : c ≠ id) :
    c ∈ (eraseServer l id).map Prod.fst := by
  rcases List.mem_map.mp hc with ⟨p, hp, hpe⟩
  refine List.mem_map.mpr ⟨p, List.mem_filter.mpr ⟨hp, ?_⟩, hpe⟩
  simpa [hpe] using hne

/-- C8: deleting a known instance succeeds, removes its record and its
live component stack (the stack teardown step precedes the record
removal in the emitted step order), and afterwards exactly one instance
is current: the previous current instance if it was not the deleted
one, otherwise a remaining instance, or the freshly created default
instance when no instance remains. -/
theorem deleteServer_spec (s : ServerManagerState) (serverId freshId now : String)
    (hmem : serverId ∈ serverIds s)
    (hcur : ∃ c, s.currentServerId = some c ∧ c ∈ serverIds s)
    (hfresh : freshId ∉ serverIds s) :
    (deleteServer s serverId freshId now).1 = true ∧
    serverId ∉ serverIds (deleteServer s serverId freshId now).2.1 ∧
    serverId ∉ (deleteServer s serverId freshId now).2.1.managers ∧
    (∃ pre post, (deleteServer s serverId freshId now).2.2 =
        pre ++ DeleteEvent.removeRecord serverId :: post ∧
      (serverId ∈ s.managers → DeleteEvent.cleanupStack serverId ∈ pre)) ∧
    ∃ c', (deleteServer s serverId freshId now).2.1.currentServerId = some c' ∧
      c' ∈ serverIds (deleteServer s serverId freshId now).2.1 ∧
      (s.currentServerId = some serverId →
        (c' ∈ serverIds s ∧ c' ≠ serverId) ∨ c' = freshId) ∧
      (s.currentServerId ≠ some serverId → s.currentServerId = some c') := by
  have hne_fresh : serverId ≠ freshId := fun hc => hfresh (hc ▸ hmem)
  have hnotman : ∀ m', m' = s.managers.filter (fun m => !(m == serverId)) →
      serverId ∉ m' := by
    rintro m' rfl hc
    rcases List.mem_filter.mp hc with ⟨_, hpred⟩
    simp at hpred
  by_cases hman : serverId ∈ s.managers <;>
    by_cases hcurid : s.currentServerId = some serverId
  case pos =>
    rcases herase : eraseServer s.servers serverId with _ | ⟨⟨fid, finfo⟩, rest⟩
    · have hres : deleteServer s serverId freshId now =
          (true,
           ⟨[(freshId, ⟨"Default Server", 25565, now, now⟩)], some freshId,
            s.managers.filter (fun m => !(m == serverId))⟩,
           [DeleteEvent.cleanupStack serverId, DeleteEvent.removeRecord serverId,
            DeleteEvent.createDefault freshId]) := by
        simp [deleteServer, hmem, hman, hcurid, herase]
      rw [hres]
      refine ⟨rfl, ?_, hnotman _ rfl, ?_, freshId, rfl, ?_, ?_, ?_⟩
      · simp [serverIds]
        exact hne_fresh
      · exact ⟨[DeleteEvent.cleanupStack serverId],
          [DeleteEvent.createDefault freshId], rfl, fun _ => by simp⟩
      · simp [serverIds]
      · exact fun _ => Or.inr rfl
      · intro hc
        exact absurd hcurid hc
    · have hhead : (fid, finfo) ∈ eraseServer s.servers serverId := by
        rw [herase]
        exact List.mem_cons_self _ _
      have hfid_mem : fid ∈ serverIds s :=
        List.mem_map.mpr ⟨(fid, finfo), List.mem_of_mem_filter hhead, rfl⟩
      have hfid_ne : fid ≠ serverId := by
        have := (List.mem_filter.mp hhead).2
        simpa using this
      have hres : deleteServer s serverId freshId now =
          (true,
           ⟨(fid, finfo) :: rest, some fid,
            s.managers.filter (fun m => !(m == serverId))⟩,
           [DeleteEvent.cleanupStack serverId, DeleteEvent.removeRecord serverId]) := by
        simp [deleteServer, hmem, hman, hcurid, herase]
      rw [hres]
      refine ⟨rfl, ?_, hnotman _ rfl, ?_, fid, rfl, ?_, ?_, ?_⟩
      · have := ids_eraseServer_not_mem s.servers serverId
        rw [herase] at this
        simpa [serverIds] using this
      · exact ⟨[DeleteEvent.cleanupStack serverId], [], rfl, fun _ => by simp⟩
      · simp [serverIds]
      · exact fun _ => Or.inl ⟨hfid_mem, hfid_ne⟩
      · intro hc
        exact absurd hcurid hc
  case neg =>
    rcases hcur with ⟨c, hceq, hcmem⟩
    have hcne : c ≠ serverId := by
      intro hc
      exact hcurid (hc ▸ hceq)
    have hres : deleteServer s serverId freshId now =
        (true,
         ⟨eraseServer s.servers serverId, s.currentServerId,
          s.managers.filter (fun m => !(m == serverId))⟩,
         [DeleteEvent.cleanupStack serverId, DeleteEvent.removeRecord serverId]) := by
      simp [deleteServer, hmem, hman, hcurid]
    rw [hres]
    refine ⟨rfl, ?_, hnotman _ rfl, ?_, c, hceq, ?_, ?_, fun _ => hceq⟩
    · simpa [serverIds] using ids_eraseServer_not_mem s.servers serverId
    · exact ⟨[DeleteEvent.cleanupStack serverId], [], rfl, fun _ => by simp⟩
    · simpa [serverIds] using ids_eraseServer_mem s.servers serverId c hcmem hcne
    · intro hc
      exact absurd hc hcurid
  case pos =>
    rcases herase : eraseServer s.servers serverId with _ | ⟨⟨fid, finfo⟩, rest⟩
    · have hres : deleteServer s serverId freshId now =
          (true,
           ⟨[(freshId, ⟨"Default Server", 25565, now, now⟩)], some freshId,
            s.managers⟩,
           [DeleteEvent.removeRecord serverId, DeleteEvent.createDefault freshId]) := by
        simp [deleteServer, hmem, hman, hcurid, herase]
      rw [hres]
      refine ⟨rfl, ?_, hman, ?_, freshId, rfl, ?_, ?_, ?_⟩
      · simp [serverIds]
        exact hne_fresh
      · exact ⟨[], [DeleteEvent.createDefault freshId], rfl, fun hc => absurd hc hman⟩
      · simp [serverIds]
      · exact fun _ => Or.inr rfl
      · intro hc
        exact absurd hcurid hc
    · have hhead : (fid, finfo) ∈ eraseServer s.servers serverId := by
        rw [herase]
        exact List.mem_cons_self _ _
      have hfid_mem : fid ∈ serverIds s :=
        List.mem_map.mpr ⟨(fid, finfo), List.mem_of_mem_filter hhead, rfl⟩
      have hfid_ne : fid ≠ serverId := by
        have := (List.mem_filter.mp hhead).2
        simpa using this
      have hres : deleteServer s serverId freshId now =
          (true,
           ⟨(fid, finfo) :: rest, some fid, s.managers⟩,
           [DeleteEvent.removeRecord serverId]) := by
        simp [deleteServer, hmem, hman, hcurid, herase]
      rw [hres]
      refine ⟨rfl, ?_, hman, ?_, fid, rfl, ?_, ?_, ?_⟩
      · have := ids_eraseServer_not_mem s.servers serverId
        rw [herase] at this
        simpa [serverIds] using this
      · exact ⟨[], [], rfl, fun hc => absurd hc hman⟩
      · simp [serverIds]
      · exact fun _ => Or.inl ⟨hfid_mem, hfid_ne⟩
      · intro hc
        exact absurd hcurid hc
  case neg =>
    rcases hcur with ⟨c, hceq, hcmem⟩
    have hcne : c ≠ serverId := by
      intro hc
      exact hcurid (hc ▸ hceq)
    have hres : deleteServer s serverId freshId now =
        (true,
         ⟨eraseServer s.servers serverId, s.currentServerId, s.managers⟩,
         [DeleteEvent.removeRecord serverId]) := by
      simp [deleteServer, hmem, hman, hcurid]
    rw [hres]
    refine ⟨rfl, ?_, hman, ?_, c, hceq, ?_, ?_, fun _ => hceq⟩
    · simpa [serverIds] using ids_eraseServer_not_mem s.servers serverId
    · exact ⟨[], [], rfl, fun hc => absurd hc hman⟩
    · simpa [serverIds] using ids_eraseServer_mem s.servers serverId c hcmem hcne
    · intro hc
      exact absurd hc hcurid

/-- Witness for `deleteServer_spec`: deleting the current instance "a"
(which has a live stack) succeeds, removes record and stack, and makes
the remaining instance "b" current. -/
theorem deleteServer_spec_witness :
    (deleteServer exRegistryDel "a" "c" "t2").1 = true ∧
    "a" ∉ serverIds (deleteServer exRegistryDel "a" "c" "t2").2.1 ∧
    "a" ∉ (deleteServer exRegistryDel "a" "c" "t2").2.1.managers :=
  ⟨(deleteServer_spec exRegistryDel "a" "c" "t2" (by decide)
      ⟨"a", rfl, by decide⟩ (by decide)).1,
   (deleteServer_spec exRegistryDel "a" "c" "t2" (by decide)
      ⟨"a", rfl, by decide⟩ (by decide)).2.1,
   (deleteServer_spec exRegistryDel "a" "c" "t2" (by decide)
      ⟨"a", rfl, by decide⟩ (by decide)).2.2.1⟩

end CraftServer
